import Mathlib

/-!
Verification of the txt2img driver script (scripts/txt2img.py).

The script is sequential glue around external ML libraries.  We give a
shallow embedding of the repository's own logic: `chunk`, `check_safety`,
`load_replacement`, `put_watermark`, `resize_image`, the sampler selector,
the prompt-batching branch of `main`, and the saving loop's counter and
filename construction.  External calls (the diffusion model, the safety
classifier, OpenCV interpolation, PIL file loading, the filesystem) are
modelled as explicit function parameters; machine arrays become lists with
explicit height/width/channel shape fields.
-/

namespace Txt2Img

/-! ## chunk (txt2img.py lines 33-35)

Python: `it = iter(it); return iter(lambda: tuple(islice(it, size)), ())`.
Repeatedly takes `size` elements from the front until the taken tuple is
empty.  Note `chunk l 0 = []` for every `l`, because `islice(it, 0)` is
always the empty tuple, which is the sentinel. -/

def chunk {α : Type u} : List α → Nat → List (List α)
  | _, 0 => []
  | [], _ + 1 => []
  | a :: t, s + 1 => ((a :: t).take (s + 1)) :: chunk ((a :: t).drop (s + 1)) (s + 1)
termination_by l _ => l.length
decreasing_by simp [List.length_drop]; omega

/-! ## Image model

A numpy image array of shape (h, w, c): height, width, channel count plus
flat pixel data.  The pixel type is a parameter; only shapes and whole-array
identity matter to the verified claims. -/

structure NpImg (Px : Type) where
  h : Nat
  w : Nat
  c : Nat
  data : List Px
deriving DecidableEq

/-! ## load_replacement (txt2img.py lines 78-86)

Python opens `assets/rick.jpeg`, converts to RGB, resizes to
`(hwc[1], hwc[0])` (width, height of the input array), casts to the input
dtype, and asserts equal shapes, returning the input unchanged if any of
those steps throws (the bare `except Exception` also catches the
`AssertionError`).  The whole external pipeline open/convert/resize/array
is the parameter `loadResized`, taking the target width and height and
returning either the placeholder array or a failure. -/

def load_replacement {Px : Type} (loadResized : Nat → Nat → Except String (NpImg Px))
    (x : NpImg Px) : NpImg Px :=
  match loadResized x.w x.h with
  | Except.error _ => x
  | Except.ok y => if y.h = x.h ∧ y.w = x.w ∧ y.c = x.c then y else x

/-! ## check_safety (txt2img.py lines 89-99)

With the switch on, the external classifier (`safety_feature_extractor`
plus `safety_checker`, modelled as one function) returns the checked batch
and a flag list; the code asserts the lengths agree (`None` models the
uncaught AssertionError) and overwrites each flagged entry with
`load_replacement` of that entry.  With the switch off, it returns the
input together with the Python literal `False`. -/

inductive SafetyFlag where
  /-- Models the Python literal `False` returned when the switch is off. -/
  | falsy : SafetyFlag
  /-- Models the `has_nsfw_concept` list returned when the switch is on. -/
  | checked : List Bool → SafetyFlag
deriving DecidableEq

def check_safety {Px : Type} (safety_checker : List (NpImg Px) → List (NpImg Px) × List Bool)
    (loadResized : Nat → Nat → Except String (NpImg Px))
    (nsfw_filter_switch : Bool) (x_image : List (NpImg Px)) :
    Option (List (NpImg Px) × SafetyFlag) :=
  if nsfw_filter_switch then
    let x_checked_image := (safety_checker x_image).1
    let has_nsfw_concept := (safety_checker x_image).2
    if x_checked_image.length = has_nsfw_concept.length then
      some ((x_checked_image.zip has_nsfw_concept).map
              (fun p => if p.2 then load_replacement loadResized p.1 else p.1),
            SafetyFlag.checked has_nsfw_concept)
    else none
  else
    some (x_image, SafetyFlag.falsy)

/-- Concrete classifier for the C3 witness: flags every image. -/
def flagAllChecker (l : List (NpImg Nat)) : List (NpImg Nat) × List Bool :=
  (l, l.map (fun _ => true))

/-- Concrete placeholder loader for the C3 witness: always succeeds with a
single-channel image of the requested dimensions. -/
def okLoader (w h : Nat) : Except String (NpImg Nat) :=
  Except.ok ⟨h, w, 1, [7]⟩

/-- Concrete always-failing loader for the C10 witness. -/
def failLoader (_w _h : Nat) : Except String (NpImg Nat) :=
  Except.error "file not found"

/-! ## put_watermark (txt2img.py lines 70-75)

Python tests `watermark_protection and wm_encoder is not None`;
`watermark_protection` is an integer CLI flag, so the test is
integer truthiness.  When both hold, the image goes through
RGB-to-BGR conversion, the external encoder, and a channel-reversing
array-to-image conversion; those externals are the parameters
`cvtColorRGB2BGR`, the encoder inside the option, and
`fromArrayRevChannels`.  `P` is the PIL image type, `A` the OpenCV
array type. -/

def put_watermark {P A : Type} (cvtColorRGB2BGR : P → A) (fromArrayRevChannels : A → P)
    (watermark_protection : Nat) (img : P) (wm_encoder : Option (A → A)) : P :=
  match wm_encoder with
  | some enc =>
    if watermark_protection ≠ 0 then
      fromArrayRevChannels (enc (cvtColorRGB2BGR img))
    else img
  | none => img

/-! ## resize_image (txt2img.py lines 102-106)

`cv2.imread` and the Lanczos interpolation are external: `imread` maps a
path to an array, `interp` computes the interpolated pixels.  The
`cv2.resize` contract is that the output array has exactly the requested
`dsize = (width*resize_factor, height*resize_factor)`; `cv2.imwrite` is
modelled by returning the destination path paired with the written
array. -/

structure CvImg (Px : Type) where
  h : Nat
  w : Nat
  data : List Px
deriving DecidableEq

def cv2_resize {Px : Type} (interp : CvImg Px → Nat → Nat → List Px)
    (img : CvImg Px) (dw dh : Nat) : CvImg Px :=
  ⟨dh, dw, interp img dw dh⟩

def resize_image {Px : Type} (imread : String → CvImg Px)
    (interp : CvImg Px → Nat → Nat → List Px)
    (source_image destination_image : String)
    (width height resize_factor : Nat) : String × CvImg Px :=
  let image_to_resize := imread source_image
  let resized_image := cv2_resize interp image_to_resize
    (width * resize_factor) (height * resize_factor)
  (destination_image, resized_image)

/-- Concrete external reader for the C6 counterexample: every path reads as
a 100 x 100 image. -/
def imread100 (_path : String) : CvImg Nat := ⟨100, 100, []⟩

/-- Concrete interpolator for the C6 counterexample. -/
def interp0 (_img : CvImg Nat) (_dw _dh : Nat) : List Nat := []

/-! ## Output filenames (txt2img.py lines 472-477)

The f-strings build `original\NNNNN.png`, `resized\NNNNN.png`,
`improved\NNNNN.png` with a literal backslash and the counter formatted
as `05`: zero-padded to at least five digits. -/

def pad05 (n : Nat) : String :=
  String.mk (List.replicate (5 - (toString n).length) '0') ++ toString n

def original_name (base_count : Nat) : String :=
  "original\\" ++ pad05 base_count ++ ".png"

def resized_name (base_count : Nat) : String :=
  "resized\\" ++ pad05 base_count ++ ".png"

def improved_name (base_count : Nat) : String :=
  "improved\\" ++ pad05 base_count ++ ".png"

/-- The three per-sample filenames written by one pass of the saving
loop at a given counter value. -/
def sample_file_names (base_count : Nat) : List String :=
  [original_name base_count, resized_name base_count, improved_name base_count]

/-! ## The saving loop's counter (txt2img.py lines 426, 467-478)

`base_count` starts at the number of files `os.listdir` reports in
`samples/original` (the listing is the external parameter) and the inner
loop increments it once per saved sample after writing the three variant
files.  `save_batch` returns the final counter and the list of counter
values used, one per sample; `sampling_run_counters` folds it over the
image batches produced across the whole run (all `n_iter` iterations in
order), skipping every save when `skip_save` is set. -/

def base_count_init (existing_original_files : List String) : Nat :=
  existing_original_files.length

def save_batch {S : Type} (base_count : Nat) : List S → Nat × List Nat
  | [] => (base_count, [])
  | _ :: rest =>
    let next := save_batch (base_count + 1) rest
    (next.1, base_count :: next.2)

def sampling_run_counters {S : Type} (skip_save : Bool) :
    List (List S) → Nat → Nat × List Nat
  | [], base_count => (base_count, [])
  | b :: rest, base_count =>
    if skip_save then sampling_run_counters skip_save rest base_count
    else
      let after := save_batch base_count b
      let next := sampling_run_counters skip_save rest after.1
      (next.1, after.2 ++ next.2)

/-! ## Prompt batching in main (txt2img.py lines 408-417)

Python: `if not opt.from_file:` (string truthiness: `None` and the empty
string are both falsy) asserts the prompt is not `None` and builds
`data = [batch_size * [prompt]]`; otherwise the file's lines are chunked
into batches of `batch_size`.  The `Except.error` value models the
uncaught `AssertionError`. -/

def falsy_opt_str : Option String → Bool
  | none => true
  | some s => s == ""

def default_prompt : String := "a painting of a virus monster playing guitar"

def build_data (from_file : Option String) (prompt : Option String)
    (batch_size : Nat) (file_lines : List String) :
    Except String (List (List String)) :=
  if falsy_opt_str from_file then
    match prompt with
    | none => Except.error "AssertionError"
    | some p => Except.ok [List.replicate batch_size p]
  else
    Except.ok (chunk file_lines batch_size)

/-! ## Sampler selection (txt2img.py lines 391-396)

The three external sampler constructors are modelled as an enumeration. -/

inductive Sampler where
  | dpmSolverSampler : Sampler
  | plmsSampler : Sampler
  | ddimSampler : Sampler
deriving DecidableEq

def select_sampler (dpm_solver plms : Bool) : Sampler :=
  if dpm_solver then Sampler.dpmSolverSampler
  else if plms then Sampler.plmsSampler
  else Sampler.ddimSampler

theorem chunk_nil {α : Type u} (size : Nat) : chunk ([] : List α) size = [] := by
  cases size <;> simp [chunk]

theorem chunk_cons {α : Type u} (a : α) (t : List α) (s : Nat) :
    chunk (a :: t) (s + 1) =
      ((a :: t).take (s + 1)) :: chunk ((a :: t).drop (s + 1)) (s + 1) := by
  rw [chunk]

/-- Auxiliary: concatenating the chunks gives back the input (strong
induction on the length of the list). -/
theorem chunk_join_aux {α : Type u} :
    ∀ (n : Nat) (l : List α), l.length ≤ n → ∀ s : Nat, (chunk l (s + 1)).flatten = l := by
  intro n
  induction n with
  | zero =>
    intro l hl s
    have : l = [] := List.length_eq_zero.mp (Nat.le_zero.mp hl)
    subst this
    simp [chunk_nil]
  | succ n ih =>
    intro l hl s
    cases l with
    | nil => simp [chunk_nil]
    | cons a t =>
      rw [chunk_cons, List.flatten_cons]
      have hdrop : ((a :: t).drop (s + 1)).length ≤ n := by
        simp only [List.length_drop, List.length_cons]
        have := hl
        simp only [List.length_cons] at this
        omega
      rw [ih _ hdrop s, List.take_append_drop]

/-- Auxiliary: the number of chunks is the ceiling of the length divided by
the chunk size. -/
theorem chunk_length_aux {α : Type u} :
    ∀ (n : Nat) (l : List α), l.length ≤ n →
      ∀ s : Nat, (chunk l (s + 1)).length = (l.length + s) / (s + 1) := by
  intro n
  induction n with
  | zero =>
    intro l hl s
    have : l = [] := List.length_eq_zero.mp (Nat.le_zero.mp hl)
    subst this
    simp [chunk_nil, Nat.div_eq_of_lt (Nat.lt_succ_self s)]
  | succ n ih =>
    intro l hl s
    cases l with
    | nil => simp [chunk_nil, Nat.div_eq_of_lt (Nat.lt_succ_self s)]
    | cons a t =>
      rw [chunk_cons]
      have hdrop : ((a :: t).drop (s + 1)).length ≤ n := by
        simp only [List.length_drop, List.length_cons]
        have := hl
        simp only [List.length_cons] at this
        omega
      rw [List.length_cons, ih _ hdrop s]
      simp only [List.length_drop, List.length_cons]
      rcases le_or_lt (t.length + 1) s with hle | hlt
      · have h1 : t.length + 1 - (s + 1) = 0 := by omega
        rw [h1]
        have h2 : (0 + s) / (s + 1) = 0 := by
          apply Nat.div_eq_of_lt; omega
        have h3 : (t.length + 1 + s) / (s + 1) = 1 := by
          rw [Nat.div_eq_of_lt_le]
          · omega
          · omega
        omega
      · have h1 : t.length + 1 - (s + 1) + s = t.length := by omega
        rw [h1]
        have h2 : t.length + 1 + s = t.length + (s + 1) := by omega
        rw [h2, Nat.add_div_right _ (Nat.succ_pos s)]

/-- Auxiliary: every chunk is nonempty (chunk size at least 1). -/
theorem chunk_mem_ne_nil_aux {α : Type u} :
    ∀ (n : Nat) (l : List α), l.length ≤ n →
      ∀ s : Nat, ∀ c ∈ chunk l (s + 1), c ≠ [] := by
  intro n
  induction n with
  | zero =>
    intro l hl s c hc
    have : l = [] := List.length_eq_zero.mp (Nat.le_zero.mp hl)
    subst this
    rw [chunk_nil] at hc
    exact absurd hc (List.not_mem_nil c)
  | succ n ih =>
    intro l hl s c hc
    cases l with
    | nil =>
      rw [chunk_nil] at hc
      exact absurd hc (List.not_mem_nil c)
    | cons a t =>
      rw [chunk_cons] at hc
      rcases List.mem_cons.mp hc with h | h
      · subst h
        simp [List.take_cons]
      · have hdrop : ((a :: t).drop (s + 1)).length ≤ n := by
          simp only [List.length_drop, List.length_cons]
          have := hl
          simp only [List.length_cons] at this
          omega
        exact ih _ hdrop s c h

/-- Auxiliary: every chunk except possibly the last has exactly the chunk
size. -/
theorem chunk_dropLast_aux {α : Type u} :
    ∀ (n : Nat) (l : List α), l.length ≤ n →
      ∀ s : Nat, ∀ c ∈ (chunk l (s + 1)).dropLast, c.length = s + 1 := by
  intro n
  induction n with
  | zero =>
    intro l hl s c hc
    have : l = [] := List.length_eq_zero.mp (Nat.le_zero.mp hl)
    subst this
    rw [chunk_nil] at hc
    exact absurd hc (List.not_mem_nil c)
  | succ n ih =>
    intro l hl s c hc
    cases l with
    | nil =>
      rw [chunk_nil] at hc
      exact absurd hc (List.not_mem_nil c)
    | cons a t =>
      rw [chunk_cons] at hc
      by_cases hrest : chunk ((a :: t).drop (s + 1)) (s + 1) = []
      · rw [hrest] at hc
        simp at hc
      · rw [List.dropLast_cons_of_ne_nil hrest] at hc
        rcases List.mem_cons.mp hc with h | h
        · subst h
          have hne : (a :: t).drop (s + 1) ≠ [] := by
            intro habs
            rw [habs, chunk_nil] at hrest
            exact hrest rfl
          have hlen : s + 1 < (a :: t).length := List.length_lt_of_drop_ne_nil hne
          rw [List.length_take]
          omega
        · have hdrop : ((a :: t).drop (s + 1)).length ≤ n := by
            simp only [List.length_drop, List.length_cons]
            have := hl
            simp only [List.length_cons] at this
            omega
          exact ih _ hdrop s c h

/-- C1: for every sequence of length N and batch size B >= 1, `chunk`
yields ceil(N/B) = (N + B - 1) / B batches whose concatenation equals the
input, every batch except possibly the last has size exactly B, every
batch (in particular the last) is nonempty, and the empty input produces
zero batches. -/
theorem chunk_spec {α : Type u} (l : List α) (B : Nat) (hB : 1 ≤ B) :
    (chunk l B).length = (l.length + B - 1) / B ∧
    (chunk l B).flatten = l ∧
    (∀ c ∈ (chunk l B).dropLast, c.length = B) ∧
    (∀ c ∈ chunk l B, c ≠ []) ∧
    chunk ([] : List α) B = [] := by
  cases B with
  | zero => omega
  | succ s =>
    refine ⟨?_, ?_, ?_, ?_, chunk_nil _⟩
    · have := chunk_length_aux l.length l (Nat.le_refl _) s
      simpa using this
    · exact chunk_join_aux l.length l (Nat.le_refl _) s
    · exact chunk_dropLast_aux l.length l (Nat.le_refl _) s
    · exact chunk_mem_ne_nil_aux l.length l (Nat.le_refl _) s

/-- C2: with the switch disabled, `check_safety` returns the input batch
unchanged together with the falsy "not checked" flag, for every classifier,
every placeholder loader and every input batch. -/
theorem check_safety_disabled {Px : Type}
    (safety_checker : List (NpImg Px) → List (NpImg Px) × List Bool)
    (loadResized : Nat → Nat → Except String (NpImg Px))
    (x_image : List (NpImg Px)) :
    check_safety safety_checker loadResized false x_image =
      some (x_image, SafetyFlag.falsy) := rfl

/-- Auxiliary: pointwise description of a mapped zip. -/
theorem zip_map_get? {A B C : Type} (f : A × B → C) :
    ∀ (l : List A) (m : List B) (i : Nat) (a : A) (b : B),
      l.get? i = some a → m.get? i = some b →
      ((l.zip m).map f).get? i = some (f (a, b)) := by
  intro l
  induction l with
  | nil => intro m i a b ha; simp at ha
  | cons x xs ih =>
    intro m i a b ha hb
    cases m with
    | nil => simp at hb
    | cons y ys =>
      cases i with
      | zero =>
        simp at ha hb
        subst ha; subst hb
        simp [List.zip_cons_cons]
      | succ j =>
        simp only [List.get?_cons_succ] at ha hb
        simpa [List.zip_cons_cons] using ih ys j a b ha hb

/-- C3: with the switch enabled and the classifier returning a checked
batch and a flag list of equal lengths, the result holds at every
unflagged index exactly what the classifier returned, and at every flagged
index the placeholder image resized to that entry's dimensions (whenever
loading the placeholder at those dimensions succeeds with a matching
shape). -/
theorem check_safety_enabled {Px : Type}
    (safety_checker : List (NpImg Px) → List (NpImg Px) × List Bool)
    (loadResized : Nat → Nat → Except String (NpImg Px))
    (x_image x_checked : List (NpImg Px)) (flags : List Bool)
    (hch : safety_checker x_image = (x_checked, flags))
    (hlen : x_checked.length = flags.length) :
    ∃ result : List (NpImg Px),
      check_safety safety_checker loadResized true x_image =
        some (result, SafetyFlag.checked flags) ∧
      result.length = x_checked.length ∧
      (∀ (i : Nat) (img : NpImg Px), flags.get? i = some false →
        x_checked.get? i = some img → result.get? i = some img) ∧
      (∀ (i : Nat) (img y : NpImg Px), flags.get? i = some true →
        x_checked.get? i = some img →
        loadResized img.w img.h = Except.ok y →
        y.h = img.h → y.w = img.w → y.c = img.c →
        result.get? i = some y) := by
  refine ⟨(x_checked.zip flags).map
    (fun p => if p.2 then load_replacement loadResized p.1 else p.1), ?_, ?_, ?_, ?_⟩
  · simp only [check_safety, hch, if_pos hlen]
    rfl
  · simp [List.length_zip, hlen]
  · intro i img hf hx
    have := zip_map_get?
      (fun p : NpImg Px × Bool => if p.2 then load_replacement loadResized p.1 else p.1)
      x_checked flags i img false hx hf
    simpa using this
  · intro i img y hf hx hload hh hw hc
    have := zip_map_get?
      (fun p : NpImg Px × Bool => if p.2 then load_replacement loadResized p.1 else p.1)
      x_checked flags i img true hx hf
    simp only [if_pos rfl] at this
    rw [this]
    unfold load_replacement
    rw [hload]
    simp [hh, hw, hc]

/-- Witness for C3 at a concrete one-image batch, flagged by the
classifier, with a successfully loading placeholder. -/
theorem check_safety_enabled_witness :
    ∃ result : List (NpImg Nat),
      check_safety flagAllChecker okLoader true [⟨1, 1, 1, [0]⟩] =
        some (result, SafetyFlag.checked [true]) ∧
      result.length = [(⟨1, 1, 1, [0]⟩ : NpImg Nat)].length ∧
      (∀ (i : Nat) (img : NpImg Nat), [true].get? i = some false →
        [(⟨1, 1, 1, [0]⟩ : NpImg Nat)].get? i = some img → result.get? i = some img) ∧
      (∀ (i : Nat) (img y : NpImg Nat), [true].get? i = some true →
        [(⟨1, 1, 1, [0]⟩ : NpImg Nat)].get? i = some img →
        okLoader img.w img.h = Except.ok y →
        y.h = img.h → y.w = img.w → y.c = img.c →
        result.get? i = some y) :=
  check_safety_enabled flagAllChecker okLoader
    [⟨1, 1, 1, [0]⟩] [⟨1, 1, 1, [0]⟩] [true] rfl rfl

/-- C10: `load_replacement` is a total function (no exception escapes: the
Python body is wrapped in a bare `except Exception` handler), and whenever
loading or resizing the placeholder fails or the resulting shape does not
match, it returns its input unchanged. -/
theorem load_replacement_failure {Px : Type}
    (loadResized : Nat → Nat → Except String (NpImg Px)) (x : NpImg Px)
    (hfail : ∀ y : NpImg Px, loadResized x.w x.h = Except.ok y →
      ¬(y.h = x.h ∧ y.w = x.w ∧ y.c = x.c)) :
    load_replacement loadResized x = x := by
  unfold load_replacement
  cases hload : loadResized x.w x.h with
  | error e => rfl
  | ok y => simp [hfail y hload]

/-- Witness for C10 with a loader that always fails. -/
theorem load_replacement_failure_witness :
    load_replacement failLoader ⟨2, 3, 3, []⟩ = ⟨2, 3, 3, []⟩ :=
  load_replacement_failure failLoader ⟨2, 3, 3, []⟩
    (fun _y hy => Except.noConfusion hy)

/-- C4: with the watermark switch disabled (the integer flag is 0) or no
encoder supplied, `put_watermark` returns the input image unchanged. -/
theorem put_watermark_disabled {P A : Type} (cvtColorRGB2BGR : P → A)
    (fromArrayRevChannels : A → P) (watermark_protection : Nat) (img : P)
    (wm_encoder : Option (A → A))
    (h : watermark_protection = 0 ∨ wm_encoder = none) :
    put_watermark cvtColorRGB2BGR fromArrayRevChannels
      watermark_protection img wm_encoder = img := by
  cases wm_encoder with
  | none => rfl
  | some enc =>
    rcases h with h | h
    · subst h
      simp [put_watermark]
    · exact absurd h (Option.some_ne_none enc)

/-- Witness for C4 with the flag at 0 and an identity encoder present. -/
theorem put_watermark_disabled_witness :
    put_watermark (id : Nat → Nat) id 0 5 (some id) = 5 :=
  put_watermark_disabled id id 0 5 (some id) (Or.inl rfl)

/-- C6 counterexample: with a 100 x 100 source image and width = height =
512, resize factor 2, the output width is 512*2 = 1024, not the source
width times the factor (100*2 = 200).  `resize_image` scales its
width/height parameters, not the source image's own dimensions. -/
theorem resize_image_source_dims_cex :
    (resize_image imread100 interp0 "src.png" "dst.png" 512 512 2).2.w ≠
      (imread100 "src.png").w * 2 := by decide

/-- C6 amended: `resize_image` produces an image whose width and height
equal the `width` and `height` parameters each multiplied by the resize
factor, and writes it to the destination path, regardless of the source
image's own dimensions. -/
theorem resize_image_dims {Px : Type} (imread : String → CvImg Px)
    (interp : CvImg Px → Nat → Nat → List Px)
    (source_image destination_image : String) (width height resize_factor : Nat) :
    (resize_image imread interp source_image destination_image
        width height resize_factor).2.w = width * resize_factor ∧
    (resize_image imread interp source_image destination_image
        width height resize_factor).2.h = height * resize_factor ∧
    (resize_image imread interp source_image destination_image
        width height resize_factor).1 = destination_image :=
  ⟨rfl, rfl, rfl⟩

/-- C7: every per-sample filename built by the saving loop consists of the
variant subfolder name, a hardcoded backslash, and the zero-padded counter
with the `.png` extension; in particular each contains a backslash. -/
theorem sample_file_names_backslash (base_count : Nat) (f : String)
    (hf : f ∈ sample_file_names base_count) :
    (∃ variant : String,
      (variant = "original" ∨ variant = "resized" ∨ variant = "improved") ∧
      f.data = variant.data ++ '\\' :: ((pad05 base_count).data ++ ".png".data)) ∧
    '\\' ∈ f.data := by
  have hsplit : ∀ variant rest : String,
      (variant ++ "\\" ++ rest).data = variant.data ++ '\\' :: rest.data := by
    intro variant rest
    simp [String.data_append]
  simp only [sample_file_names, List.mem_cons, List.not_mem_nil, or_false] at hf
  rcases hf with h | h | h <;> subst h
  · refine ⟨⟨"original", Or.inl rfl, ?_⟩, ?_⟩
    · have := hsplit "original" (pad05 base_count ++ ".png")
      simp only [original_name, String.append_assoc] at this ⊢
      exact this
    · simp [original_name, String.data_append]
  · refine ⟨⟨"resized", Or.inr (Or.inl rfl), ?_⟩, ?_⟩
    · have := hsplit "resized" (pad05 base_count ++ ".png")
      simp only [resized_name, String.append_assoc] at this ⊢
      exact this
    · simp [resized_name, String.data_append]
  · refine ⟨⟨"improved", Or.inr (Or.inr rfl), ?_⟩, ?_⟩
    · have := hsplit "improved" (pad05 base_count ++ ".png")
      simp only [improved_name, String.append_assoc] at this ⊢
      exact this
    · simp [improved_name, String.data_append]

/-- Witness for C7 at counter 0 and the original-variant filename. -/
theorem sample_file_names_backslash_witness :
    (∃ variant : String,
      (variant = "original" ∨ variant = "resized" ∨ variant = "improved") ∧
      (original_name 0).data = variant.data ++ '\\' :: ((pad05 0).data ++ ".png".data)) ∧
    '\\' ∈ (original_name 0).data :=
  sample_file_names_backslash 0 (original_name 0) (by simp [sample_file_names])

/-- Auxiliary: shifting a split range. -/
theorem range_map_add_split (init a b : Nat) :
    (List.range (a + b)).map (fun k => init + k) =
      (List.range a).map (fun k => init + k) ++
        (List.range b).map (fun k => init + a + k) := by
  rw [List.range_add, List.map_append, List.map_map]
  congr 1
  apply List.map_congr_left
  intro k _
  simp [Function.comp]
  omega

theorem save_batch_eq {S : Type} :
    ∀ (b : List S) (n : Nat),
      save_batch n b = (n + b.length, (List.range b.length).map (fun k => n + k)) := by
  intro b
  induction b with
  | nil => intro n; simp [save_batch]
  | cons x xs ih =>
    intro n
    simp only [save_batch, ih (n + 1), List.length_cons]
    rw [Prod.ext_iff]
    refine ⟨by simp; omega, ?_⟩
    simp only [List.range_succ_eq_map, List.map_cons, List.map_map]
    rw [Nat.add_zero]
    congr 1
    apply List.map_congr_left
    intro k _
    simp [Function.comp, Nat.succ_eq_add_one]
    omega

theorem sampling_run_counters_eq {S : Type} (skip_save : Bool) :
    ∀ (batches : List (List S)) (init : Nat),
      sampling_run_counters skip_save batches init =
        if skip_save then (init, [])
        else (init + (batches.map List.length).sum,
              (List.range (batches.map List.length).sum).map (fun k => init + k)) := by
  intro batches
  induction batches with
  | nil =>
    intro init
    cases skip_save <;> simp [sampling_run_counters]
  | cons b rest ih =>
    intro init
    cases skip_save with
    | true => simp [sampling_run_counters, ih]
    | false =>
      simp only [sampling_run_counters, Bool.false_eq_true, if_false]
      rw [save_batch_eq, ih (init + b.length)]
      simp only [Bool.false_eq_true, if_false, List.map_cons, List.sum_cons]
      rw [Prod.ext_iff]
      refine ⟨by simp; omega, ?_⟩
      simp only []
      rw [range_map_add_split init b.length ((rest.map List.length).sum)]

/-- C5: across one run, the counter starts at the number of files already
listed in samples/original, the counter values used are consecutive
(strictly increasing by exactly one per saved sample, starting at the
initial value), the final value is the initial value plus the number of
samples saved, and with `skip_save` off the number saved is the total
number of images across all batches (zero with `skip_save` on). -/
theorem base_count_run_spec {S : Type} (existing_original_files : List String)
    (skip_save : Bool) (image_batches : List (List S)) :
    (sampling_run_counters skip_save image_batches
        (base_count_init existing_original_files)).2 =
      (List.range (sampling_run_counters skip_save image_batches
          (base_count_init existing_original_files)).2.length).map
        (fun k => base_count_init existing_original_files + k) ∧
    (sampling_run_counters skip_save image_batches
        (base_count_init existing_original_files)).1 =
      base_count_init existing_original_files +
        (sampling_run_counters skip_save image_batches
          (base_count_init existing_original_files)).2.length ∧
    (skip_save = false →
      (sampling_run_counters skip_save image_batches
          (base_count_init existing_original_files)).2.length =
        (image_batches.map List.length).sum) ∧
    (skip_save = true →
      (sampling_run_counters skip_save image_batches
          (base_count_init existing_original_files)).2.length = 0) := by
  rw [sampling_run_counters_eq]
  cases skip_save with
  | true => simp
  | false => simp

/-- Witness for C5: two existing files, two batches of sizes 2 and 1,
saving enabled. -/
theorem base_count_run_spec_witness :
    (sampling_run_counters false [[10, 20], [30]]
        (base_count_init ["a.png", "b.png"])).2 =
      (List.range (sampling_run_counters false [[10, 20], [30]]
          (base_count_init ["a.png", "b.png"])).2.length).map
        (fun k => base_count_init ["a.png", "b.png"] + k) ∧
    (sampling_run_counters false [[10, 20], [30]]
        (base_count_init ["a.png", "b.png"])).1 =
      base_count_init ["a.png", "b.png"] +
        (sampling_run_counters false [[10, 20], [30]]
          (base_count_init ["a.png", "b.png"])).2.length ∧
    (false = false →
      (sampling_run_counters false [[10, 20], [30]]
          (base_count_init ["a.png", "b.png"])).2.length =
        ([[10, 20], [30]].map List.length).sum) ∧
    (false = true →
      (sampling_run_counters false [[10, 20], [30]]
          (base_count_init ["a.png", "b.png"])).2.length = 0) :=
  base_count_run_spec ["a.png", "b.png"] false [[10, 20], [30]]

/-- C8: with no prompt file given, a null prompt makes the batching step
fail with the assertion error, and with the prompt at its non-null default
string the assertion branch is unreachable and batching yields one batch
of `batch_size` copies of the default prompt. -/
theorem prompt_assertion_spec (batch_size : Nat) (file_lines : List String) :
    build_data none none batch_size file_lines =
      Except.error "AssertionError" ∧
    build_data none (some default_prompt) batch_size file_lines =
      Except.ok [List.replicate batch_size default_prompt] :=
  ⟨rfl, rfl⟩

/-- C9: the selector picks exactly one of the three samplers: DPM-solver
exactly when the dpm_solver flag is set, PLMS exactly when dpm_solver is
unset and plms is set, and DDIM exactly when both are unset. -/
theorem select_sampler_spec :
    ∀ dpm_solver plms : Bool,
      (select_sampler dpm_solver plms = Sampler.dpmSolverSampler ↔
        dpm_solver = true) ∧
      (select_sampler dpm_solver plms = Sampler.plmsSampler ↔
        dpm_solver = false ∧ plms = true) ∧
      (select_sampler dpm_solver plms = Sampler.ddimSampler ↔
        dpm_solver = false ∧ plms = false) := by decide

/-- Witness for C1 at the concrete input [0,1,2,3,4] with batch size 2. -/
theorem chunk_spec_witness :
    (1 ≤ 2) ∧
    ((chunk [0, 1, 2, 3, 4] 2).length = ([0, 1, 2, 3, 4].length + 2 - 1) / 2 ∧
     (chunk [0, 1, 2, 3, 4] 2).flatten = [0, 1, 2, 3, 4] ∧
     (∀ c ∈ (chunk [0, 1, 2, 3, 4] 2).dropLast, c.length = 2) ∧
     (∀ c ∈ chunk [0, 1, 2, 3, 4] 2, c ≠ []) ∧
     chunk ([] : List Nat) 2 = []) :=
  ⟨by decide, chunk_spec [0, 1, 2, 3, 4] 2 (by decide)⟩

end Txt2Img
